import Mathlib

/-!
Verification of the detector firmware core (frame header protocol, frame ring,
sequence engine, control-protocol anti-replay, watchdog) against its
natural-language specification.  The C sources under `fw/src` are shallowly
embedded: machine integers become `Nat` with explicit truncation where the C
semantics truncates, byte buffers become `List Nat`, the file-scope singleton
contexts become explicit state records, and each C function becomes a pure
Lean function returning its errno-style result together with the new state.
-/

/- Linux errno values used by the sources (returned negated). -/
def ENOENT : Int := 2
def ENOMEM : Int := 12
def EBUSY : Int := 16
def EINVAL : Int := 22
def EBADMSG : Int := 74
def EMSGSIZE : Int := 90
def EADDRINUSE : Int := 98
def ETIMEDOUT : Int := 110

/- ==========================================================================
   CRC-16/CCITT  (util/crc16.h)
   ========================================================================== -/

/-- Modelled from the spec: the CRC-16/CCITT implementation (`crc16_ccitt`,
called by `protocol/frame_header.c` and declared alongside `util/crc16.h`) is
not present under `src` (the util directory only contains `log.c`).  The spec
fixes it completely: polynomial 0x1021, initial value 0xFFFF, no input or
output reflection, no final XOR.  This is one MSB-first shift round: if bit 15
of the running CRC is set, shift left and XOR the polynomial, else shift left;
the CRC is kept in 16 bits. -/
def crc16_round (crc : Nat) : Nat :=
  if 32768 ≤ crc % 65536 then (((crc % 65536) * 2) ^^^ 0x1021) % 65536
  else ((crc % 65536) * 2) % 65536

/-- Incorporate one input byte (XORed into the high byte) and run 8 rounds. -/
def crc16_byte (crc b : Nat) : Nat :=
  let c := (crc ^^^ (b % 256) * 256) % 65536
  crc16_round (crc16_round (crc16_round (crc16_round
    (crc16_round (crc16_round (crc16_round (crc16_round c)))))))

/-- Modelled from the spec: CRC-16/CCITT over a byte list, initial 0xFFFF. -/
def crc16_ccitt (data : List Nat) : Nat :=
  data.foldl crc16_byte 0xFFFF

set_option maxRecDepth 8192 in
/-- The spec's CRC check value: CRC of the ASCII bytes of "123456789". -/
theorem crc16_check_value : crc16_ccitt [49, 50, 51, 52, 53, 54, 55, 56, 57] = 0x29B1 := by
  decide

theorem crc16_empty : crc16_ccitt [] = 0xFFFF := by decide

/- ==========================================================================
   Frame header protocol  (protocol/frame_header.c)
   ========================================================================== -/

def FRAME_HEADER_MAGIC : Nat := 0xD7E01234
def FRAME_HEADER_SIZE : Nat := 32
def FRAME_HEADER_CRC_OFFSET : Nat := 28
def FRAME_FLAG_FIRST_PACKET : Nat := 1
def FRAME_FLAG_LAST_PACKET : Nat := 2
def FRAME_FLAG_DROP_INDICATOR : Nat := 32768

/-- `encode_le16` from frame_header.c: two bytes, little endian. -/
def encode_le16 (v : Nat) : List Nat :=
  [v % 256, v / 256 % 256]

/-- `encode_le32` from frame_header.c: four bytes, little endian. -/
def encode_le32 (v : Nat) : List Nat :=
  [v % 256, v / 256 % 256, v / 65536 % 256, v / 16777216 % 256]

/-- `encode_le64` from frame_header.c: eight bytes, little endian. -/
def encode_le64 (v : Nat) : List Nat :=
  [v % 256, v / 2 ^ 8 % 256, v / 2 ^ 16 % 256, v / 2 ^ 24 % 256,
   v / 2 ^ 32 % 256, v / 2 ^ 40 % 256, v / 2 ^ 48 % 256, v / 2 ^ 56 % 256]

def byteAt (buf : List Nat) (i : Nat) : Nat := buf.getD i 0

/-- `decode_le16` from frame_header.c. -/
def decode_le16 (buf : List Nat) (off : Nat) : Nat :=
  byteAt buf off + 256 * byteAt buf (off + 1)

/-- `decode_le32` from frame_header.c. -/
def decode_le32 (buf : List Nat) (off : Nat) : Nat :=
  byteAt buf off + 2 ^ 8 * byteAt buf (off + 1) +
  2 ^ 16 * byteAt buf (off + 2) + 2 ^ 24 * byteAt buf (off + 3)

/-- `decode_le64` from frame_header.c. -/
def decode_le64 (buf : List Nat) (off : Nat) : Nat :=
  byteAt buf off + 2 ^ 8 * byteAt buf (off + 1) +
  2 ^ 16 * byteAt buf (off + 2) + 2 ^ 24 * byteAt buf (off + 3) +
  2 ^ 32 * byteAt buf (off + 4) + 2 ^ 40 * byteAt buf (off + 5) +
  2 ^ 48 * byteAt buf (off + 6) + 2 ^ 56 * byteAt buf (off + 7)

/-- `frame_header_encode` from frame_header.c, as the 32-byte buffer it
produces.  The C zeroes the buffer, writes magic at 0, frame_number at 4,
packet_index at 8, total_packets at 10, payload_len at 12, flags at 14,
then the 64-bit timestamp via `encode_le64(buf + 22, timestamp_ns)`
(offset 22, so bytes 22..29), then computes the CRC over bytes 0..27 and
writes it at offset 28 — overwriting the last two timestamp bytes.  `pre`
below is the buffer just before the CRC write; the result replaces bytes
28..29 of `pre` with the little-endian CRC. -/
def frame_header_encode (frame_number packet_index total_packets payload_len
    flags timestamp_ns : Nat) : List Nat :=
  let pre : List Nat :=
    encode_le32 FRAME_HEADER_MAGIC ++ encode_le32 frame_number ++
    encode_le16 packet_index ++ encode_le16 total_packets ++
    encode_le16 payload_len ++ encode_le16 flags ++
    [0, 0, 0, 0, 0, 0] ++ encode_le64 timestamp_ns ++ [0, 0]
  let crc := crc16_ccitt (pre.take FRAME_HEADER_CRC_OFFSET)
  pre.take FRAME_HEADER_CRC_OFFSET ++ encode_le16 crc ++ pre.drop 30

structure FrameHeaderDecoded where
  frame_number : Nat
  packet_index : Nat
  total_packets : Nat
  payload_len : Nat
  flags : Nat
  timestamp_ns : Nat
  crc_valid : Bool
deriving DecidableEq, Repr

/-- `frame_header_decode` from frame_header.c.  Fails (−EINVAL, here `none`)
when the buffer is shorter than 32 bytes or the magic does not match; reads
the timestamp via `decode_le64(buf + 22)` (offset 22) and reports
`crc_valid` by recomputing the CRC over bytes 0..27 and comparing it with
the stored little-endian CRC at offset 28. -/
def frame_header_decode (buf : List Nat) : Option FrameHeaderDecoded :=
  if buf.length < FRAME_HEADER_SIZE then none
  else if decode_le32 buf 0 ≠ FRAME_HEADER_MAGIC then none
  else some
    { frame_number := decode_le32 buf 4
      packet_index := decode_le16 buf 8
      total_packets := decode_le16 buf 10
      payload_len := decode_le16 buf 12
      flags := decode_le16 buf 14
      timestamp_ns := decode_le64 buf 22
      crc_valid :=
        decode_le16 buf FRAME_HEADER_CRC_OFFSET ==
          crc16_ccitt (buf.take FRAME_HEADER_CRC_OFFSET) }

/-- `frame_header_calc_packets` from frame_header.c. -/
def frame_header_calc_packets (frame_size payload_size : Nat) : Nat :=
  if payload_size = 0 then 0
  else
    let packets := (frame_size + payload_size - 1) / payload_size
    if packets = 0 then 1 else packets

/- ==========================================================================
   Ethernet frame fragmentation  (hal/eth_tx.c, eth_tx_send_frame)
   ========================================================================== -/

def ETH_FRAME_HEADER_SIZE : Nat := 32
def ETH_DEFAULT_MAX_PAYLOAD : Nat := 8192

structure EthPacketHdr where
  packet_index : Nat
  total_packets : Nat
  payload_len : Nat
  flags : Nat
deriving DecidableEq, Repr

/-- The per-packet header fields produced by the fragmentation loop of
`eth_tx_send_frame` (hal/eth_tx.c): payload cap = configured max payload
(default 8192) minus the 32-byte header; `total_packets` is the ceiling
division computed as `(frame_size + ppp - 1) / ppp`; packet `i` carries
`payload_len = min(ppp, frame_size - i*ppp)` via the C conditional; the C
sets `header.flags = 0` for every packet. -/
def eth_tx_packets (frame_size max_payload : Nat) : List EthPacketHdr :=
  let mp := if max_payload = 0 then ETH_DEFAULT_MAX_PAYLOAD else max_payload
  let ppp := mp - ETH_FRAME_HEADER_SIZE
  let total := (frame_size + ppp - 1) / ppp
  (List.range total).map fun i =>
    { packet_index := i
      total_packets := total
      payload_len :=
        if frame_size < i * ppp + ppp then frame_size - i * ppp else ppp
      flags := 0 }

/- ==========================================================================
   Frame ring  (frame_manager.c)
   ========================================================================== -/

def UINT32_MAX : Nat := 4294967295

inductive BufState
  | free
  | filling
  | ready
  | sending
deriving DecidableEq, Repr

structure FrameBuffer where
  state : BufState
  frame_number : Nat
deriving DecidableEq, Repr

structure FrameStats where
  frames_received : Nat
  frames_sent : Nat
  frames_dropped : Nat
  overruns : Nat
deriving DecidableEq, Repr

/-- The frame manager singleton `g_frame_mgr` after `frame_mgr_init` with the
mandatory four buffers; only the fields the frame-ring logic reads and writes
are modelled (the payload pointers and byte sizes never influence control
flow). -/
structure FrameMgr where
  buffers : Fin 4 → FrameBuffer
  oldest_index : Fin 4
  stats : FrameStats

/-- `frame_number_to_index`: `frame_number % num_buffers` with four buffers. -/
def idx4 (n : Nat) : Fin 4 := ⟨n % 4, Nat.mod_lt n (by norm_num)⟩

/-- Write one slot of the four-slot descriptor array (`g_frame_mgr.buffers[i] = b`). -/
def setSlot (bufs : Fin 4 → FrameBuffer) (i : Fin 4) (b : FrameBuffer) :
    Fin 4 → FrameBuffer :=
  fun j => if j.val = i.val then b else bufs j

/-- State of `g_frame_mgr` right after `frame_mgr_init`: all four slots FREE
with frame_number 0, oldest_index 0, statistics zeroed. -/
def frame_mgr_init : FrameMgr :=
  { buffers := fun _ => { state := .free, frame_number := 0 }
    oldest_index := 0
    stats := { frames_received := 0, frames_sent := 0, frames_dropped := 0, overruns := 0 } }

/-- The victim scans in `frame_mgr_get_buffer`: walk `i = 0..3` over index
`(oldest_index + i) % 4` and return the first slot satisfying `p`. -/
def scanFrom (m : FrameMgr) (p : FrameBuffer → Bool) : Option (Fin 4) :=
  (List.range 4).findSome? fun i =>
    let idx := idx4 (m.oldest_index.val + i)
    if p (m.buffers idx) then some idx else none

/-- `frame_mgr_get_buffer` (acquire-for-fill).  If the mapped slot is FREE it
becomes FILLING for this frame.  Otherwise the oldest-drop policy runs: first
scan for a SENDING slot from the oldest index, else for any non-FREE slot
(`drop_index` stays `oldest_index` if both scans fail, which cannot happen
here since the mapped slot is non-FREE); the victim is forced to FREE,
`frames_dropped` and `overruns` are incremented, `oldest_index` advances past
the victim, and the victim slot is reused as the FILLING slot for this frame.
Always returns 0 on an initialized ring. -/
def frame_mgr_get_buffer (frame_number : Nat) (m : FrameMgr) : Int × FrameMgr :=
  let index := idx4 frame_number
  if (m.buffers index).state = .free then
    (0, { m with buffers :=
            setSlot m.buffers index { state := .filling, frame_number := frame_number } })
  else
    let drop_index :=
      match scanFrom m (fun b => b.state == .sending) with
      | some i => i
      | none =>
        match scanFrom m (fun b => !(b.state == .free)) with
        | some i => i
        | none => m.oldest_index
    let m1 :=
      { m with
        buffers :=
          setSlot m.buffers drop_index { (m.buffers drop_index) with state := .free }
        stats :=
          { m.stats with
            frames_dropped := m.stats.frames_dropped + 1
            overruns := m.stats.overruns + 1 }
        oldest_index := idx4 (drop_index.val + 1) }
    let bufs2 :=
      setSlot m1.buffers drop_index { state := .filling, frame_number := frame_number }
    (0, { m1 with buffers := bufs2 })

/-- `frame_mgr_commit_buffer`: the mapped slot must be FILLING; it becomes
READY and `frames_received` is incremented, else −EINVAL with no change. -/
def frame_mgr_commit_buffer (frame_number : Nat) (m : FrameMgr) : Int × FrameMgr :=
  let index := idx4 frame_number
  if (m.buffers index).state = .filling then
    (0, { m with
          buffers :=
            setSlot m.buffers index { (m.buffers index) with state := .ready }
          stats := { m.stats with frames_received := m.stats.frames_received + 1 } })
  else (-EINVAL, m)

/-- The READY-slot selection loop of `frame_mgr_get_ready_buffer`: walk
`i = 0..3` from the oldest index, keeping the READY slot with the strictly
smallest frame number (the tracker starts at UINT32_MAX). -/
def findOldestReady (m : FrameMgr) : Option (Fin 4) × Nat :=
  (List.range 4).foldl
    (fun acc i =>
      let idx := idx4 (m.oldest_index.val + i)
      let b := m.buffers idx
      if b.state = .ready ∧ b.frame_number < acc.2 then (some idx, b.frame_number) else acc)
    ((none : Option (Fin 4)), UINT32_MAX)

/-- `frame_mgr_get_ready_buffer`: select the oldest READY slot; it becomes
SENDING and its frame number is returned, else −ENOENT with no change. -/
def frame_mgr_get_ready_buffer (m : FrameMgr) : Int × Nat × FrameMgr :=
  match (findOldestReady m).1 with
  | none => (-ENOENT, 0, m)
  | some idx =>
    (0, (m.buffers idx).frame_number,
      { m with buffers :=
          setSlot m.buffers idx { (m.buffers idx) with state := .sending } })

/-- `frame_mgr_release_buffer`: the mapped slot must be SENDING; it becomes
FREE, `frames_sent` is incremented, and if the slot was the oldest the oldest
index advances by one, else −EINVAL with no change. -/
def frame_mgr_release_buffer (frame_number : Nat) (m : FrameMgr) : Int × FrameMgr :=
  let index := idx4 frame_number
  if (m.buffers index).state = .sending then
    let m1 :=
      { m with
        buffers :=
          setSlot m.buffers index { (m.buffers index) with state := .free }
        stats := { m.stats with frames_sent := m.stats.frames_sent + 1 } }
    if index = m.oldest_index then
      (0, { m1 with oldest_index := idx4 (index.val + 1) })
    else (0, m1)
  else (-EINVAL, m)

/-- One producer/consumer call on the ring (the four mutating operations of
frame_manager.c with arbitrary arguments). -/
inductive RingOp
  | get (frame_number : Nat)
  | commit (frame_number : Nat)
  | getReady
  | release (frame_number : Nat)

def ringStep (m : FrameMgr) : RingOp → FrameMgr
  | .get fn => (frame_mgr_get_buffer fn m).2
  | .commit fn => (frame_mgr_commit_buffer fn m).2
  | .getReady => (frame_mgr_get_ready_buffer m).2.2
  | .release fn => (frame_mgr_release_buffer fn m).2

/-- The ring state after an arbitrary operation sequence from `frame_mgr_init`. -/
def ringRun (ops : List RingOp) : FrameMgr :=
  ops.foldl ringStep frame_mgr_init

/-- 1 when the slot is in state `s`, else 0. -/
def stateInd (s : BufState) (b : FrameBuffer) : Nat :=
  if b.state = s then 1 else 0

/-- Number of slots of a four-slot array in state `s`. -/
def cntB (bufs : Fin 4 → FrameBuffer) (s : BufState) : Nat :=
  stateInd s (bufs ⟨0, by omega⟩) + stateInd s (bufs ⟨1, by omega⟩) +
  stateInd s (bufs ⟨2, by omega⟩) + stateInd s (bufs ⟨3, by omega⟩)

/-- Number of slots of the ring currently in state `s`. -/
def cntState (m : FrameMgr) (s : BufState) : Nat :=
  cntB m.buffers s

/-- Counter invariant of the ring: every READY or SENDING slot was counted by
`frames_received` (at its FILLING→READY commit) and not yet by `frames_sent`. -/
def RingInv (m : FrameMgr) : Prop :=
  m.stats.frames_sent + cntState m .ready + cntState m .sending ≤
    m.stats.frames_received

/- ==========================================================================
   Sequence engine  (sequence_engine.c)
   ========================================================================== -/

def MAX_RETRY_COUNT : Nat := 3

inductive SeqState
  | idle
  | configure
  | arm
  | scanning
  | streaming
  | complete
  | error
deriving DecidableEq, Repr

inductive ScanMode
  | single
  | continuous
  | calibration
deriving DecidableEq, Repr

inductive SeqEvent
  | start_scan
  | config_done
  | arm_done
  | frame_ready
  | stop_scan
  | error
  | error_cleared
  | complete
deriving DecidableEq, Repr

structure SeqStats where
  frames_received : Nat
  frames_sent : Nat
  errors : Nat
  retries : Nat
deriving DecidableEq, Repr

/-- The `seq_ctx` singleton of sequence_engine.c after `seq_init`. -/
structure SeqCtx where
  state : SeqState
  mode : ScanMode
  retry_count : Nat
  stats : SeqStats
deriving DecidableEq, Repr

def seq_init_ctx : SeqCtx :=
  { state := .idle, mode := .single, retry_count := 0
    stats := { frames_received := 0, frames_sent := 0, errors := 0, retries := 0 } }

/-- `transition_to`: always 0 for the seven modelled states (the
`new_state >= SEQ_STATE_MAX` guard can never fire on them). -/
def transition_to (s : SeqState) (c : SeqCtx) : Int × SeqCtx :=
  (0, { c with state := s })

/-- `handle_configure_state`. -/
def handle_configure_state (c : SeqCtx) : Int × SeqCtx := transition_to .arm c

/-- `handle_arm_state`. -/
def handle_arm_state (c : SeqCtx) : Int × SeqCtx := transition_to .scanning c

/-- `handle_streaming_state`: returns 0 without touching the context. -/
def handle_streaming_state (c : SeqCtx) : Int × SeqCtx := (0, c)

/-- `handle_complete_state`: in SINGLE mode it returns 0 leaving the context
untouched (its comment says "stay in COMPLETE state" but no transition is
performed); CONTINUOUS increments `frames_sent` and transitions to SCANNING;
CALIBRATION increments `frames_sent` and transitions to ARM. -/
def handle_complete_state (c : SeqCtx) : Int × SeqCtx :=
  match c.mode with
  | .single => (0, c)
  | .continuous =>
    transition_to .scanning
      { c with stats := { c.stats with frames_sent := c.stats.frames_sent + 1 } }
  | .calibration =>
    transition_to .arm
      { c with stats := { c.stats with frames_sent := c.stats.frames_sent + 1 } }

/-- `handle_error_state`: with `retry_count ≥ 3` fail −ETIMEDOUT leaving the
context untouched; otherwise increment `retry_count` and the `retries`
statistic and transition to SCANNING. -/
def handle_error_state (c : SeqCtx) : Int × SeqCtx :=
  if MAX_RETRY_COUNT ≤ c.retry_count then (-ETIMEDOUT, c)
  else
    transition_to .scanning
      { c with retry_count := c.retry_count + 1
               stats := { c.stats with retries := c.stats.retries + 1 } }

/-- `seq_handle_event`: the dispatch switch of sequence_engine.c.  Every
unhandled (state, event) combination falls through with `result = 0` and no
mutation. -/
def seq_handle_event (event : SeqEvent) (c : SeqCtx) : Int × SeqCtx :=
  match c.state with
  | .idle =>
    if event = .start_scan then transition_to .configure c else (0, c)
  | .configure =>
    if event = .config_done then handle_configure_state c
    else if event = .error then transition_to .error c
    else if event = .stop_scan then transition_to .idle c
    else (0, c)
  | .arm =>
    if event = .arm_done then handle_arm_state c
    else if event = .error then transition_to .error c
    else if event = .stop_scan then transition_to .idle c
    else (0, c)
  | .scanning =>
    if event = .frame_ready then
      transition_to .streaming
        { c with stats := { c.stats with frames_received := c.stats.frames_received + 1 } }
    else if event = .error then transition_to .error c
    else if event = .stop_scan then transition_to .idle c
    else (0, c)
  | .streaming =>
    if event = .complete then
      let r1 := handle_streaming_state c
      if r1.1 = 0 then handle_complete_state r1.2 else r1
    else if event = .error then transition_to .error c
    else if event = .stop_scan then transition_to .idle c
    else (0, c)
  | .complete =>
    if event = .stop_scan then transition_to .idle c else (0, c)
  | .error =>
    if event = .error_cleared then handle_error_state c
    else if event = .stop_scan then transition_to .idle c
    else (0, c)

/-- `seq_start_scan`: fails −EBUSY unless IDLE or COMPLETE; otherwise records
the mode, resets the retry budget and transitions to CONFIGURE. -/
def seq_start_scan (mode : ScanMode) (c : SeqCtx) : Int × SeqCtx :=
  if c.state ≠ .idle ∧ c.state ≠ .complete then (-EBUSY, c)
  else transition_to .configure { c with mode := mode, retry_count := 0 }

/-- The (state, event) pairs for which the dispatch switch of
`seq_handle_event` has an explicit branch — exactly the transitions listed in
the specification's transition table (including both retry-budget outcomes of
ERROR_CLEARED and STOP_SCAN from every non-IDLE state). -/
def seq_event_handled : SeqState → SeqEvent → Bool
  | .idle, .start_scan => true
  | .configure, .config_done => true
  | .configure, .error => true
  | .configure, .stop_scan => true
  | .arm, .arm_done => true
  | .arm, .error => true
  | .arm, .stop_scan => true
  | .scanning, .frame_ready => true
  | .scanning, .error => true
  | .scanning, .stop_scan => true
  | .streaming, .complete => true
  | .streaming, .error => true
  | .streaming, .stop_scan => true
  | .complete, .stop_scan => true
  | .error, .error_cleared => true
  | .error, .stop_scan => true
  | _, _ => false

/- ==========================================================================
   Control protocol anti-replay  (protocol/command_protocol.c)
   ========================================================================== -/

def MAX_CLIENTS : Nat := 16

/-- The replay-tracking part of the `cmd_ctx` singleton: `last_seq[i]` and
`last_ip[i]` for the 16 client slots (an empty string marks a free slot, as
in the C where `last_ip[i][0] == '\0'`).  The HMAC key and auth-failure
counter never influence the replay logic and are not modelled. -/
structure CmdCtx where
  last_seq : Fin 16 → Nat
  last_ip : Fin 16 → String

/-- `cmd_protocol_init`: both client-tracking arrays zeroed. -/
def cmd_protocol_init_ctx : CmdCtx :=
  { last_seq := fun _ => 0, last_ip := fun _ => "" }

/-- First pass of `find_client_slot`: the first slot whose stored string is
nonempty and equal to the source string. -/
def findMatchSlot (c : CmdCtx) (source_ip : String) : Option (Fin 16) :=
  (List.finRange 16).find? fun i =>
    decide (c.last_ip i ≠ "" ∧ c.last_ip i = source_ip)

/-- Second pass of `find_client_slot`: the first free slot. -/
def findEmptySlot (c : CmdCtx) : Option (Fin 16) :=
  (List.finRange 16).find? fun i => decide (c.last_ip i = "")

/-- `find_client_slot`: return an existing slot for this source, or claim the
first free slot (storing the source truncated to 15 characters, as
`strncpy(..., 15)` does), or fail when all 16 slots are taken.  Note that the
allocation mutates the context even when called from the replay *check*. -/
def find_client_slot (source_ip : String) (c : CmdCtx) : Option (Fin 16) × CmdCtx :=
  match findMatchSlot c source_ip with
  | some i => (some i, c)
  | none =>
    match findEmptySlot c with
    | some i =>
      (some i, { c with last_ip := Function.update c.last_ip i (source_ip.take 15) })
    | none => (none, c)

/-- `cmd_check_replay`: −ENOMEM when no slot can be found or allocated;
−EADDRINUSE (replay) when the sequence is not strictly greater than the last
sequence recorded for the slot; 0 otherwise. -/
def cmd_check_replay (sequence : Nat) (source_ip : String) (c : CmdCtx) : Int × CmdCtx :=
  match find_client_slot source_ip c with
  | (none, c1) => (-ENOMEM, c1)
  | (some i, c1) =>
    if sequence ≤ c1.last_seq i then (-EADDRINUSE, c1) else (0, c1)

/-- `cmd_update_replay_state`: record the sequence for the source's slot. -/
def cmd_update_replay_state (sequence : Nat) (source_ip : String) (c : CmdCtx) : CmdCtx :=
  match find_client_slot source_ip c with
  | (none, c1) => c1
  | (some i, c1) => { c1 with last_seq := Function.update c1.last_seq i sequence }

/-- One control-datagram admission as the dispatch pipeline performs it:
run the replay check, and only on success update the replay state (dispatch
step 7: "advance per-source sequence on success only"). -/
def cmd_process (sequence : Nat) (source_ip : String) (c : CmdCtx) : Int × CmdCtx :=
  let r := cmd_check_replay sequence source_ip c
  if r.1 = 0 then (0, cmd_update_replay_state sequence source_ip r.2) else r

/-- A source string is a canonical source address: nonempty and short enough
(at most 15 characters) that the `strncpy(..., 15)` into a 16-byte `last_ip`
entry stores it unchanged; every dotted-quad address satisfies this. -/
def CanonIp (s : String) : Prop := s ≠ "" ∧ s.take 15 = s

/-- Replay-table states reachable from `cmd_protocol_init` by processing
commands from canonical source addresses. -/
inductive CmdReach : CmdCtx → Prop
  | init : CmdReach cmd_protocol_init_ctx
  | step (sequence : Nat) (ip : String) (c : CmdCtx) (h : CmdReach c)
      (hip : CanonIp ip) : CmdReach (cmd_process sequence ip c).2

/-- A trace of later commands: arbitrary sequences from canonical sources. -/
def ValidTrace (tr : List (Nat × String)) : Prop := ∀ p ∈ tr, CanonIp p.2

def runCmds (tr : List (Nat × String)) (c : CmdCtx) : CmdCtx :=
  tr.foldl (fun c p => (cmd_process p.1 p.2 c).2) c

/-- Invariant of the replay table: free slots hold sequence 0, and no two
slots track the same source. -/
def CmdInv (c : CmdCtx) : Prop :=
  (∀ i, c.last_ip i = "" → c.last_seq i = 0) ∧
  (∀ i j, c.last_ip i ≠ "" → c.last_ip i = c.last_ip j → i = j)

/- ==========================================================================
   Watchdog  (health_monitor.c)
   ========================================================================== -/

def WATCHDOG_TIMEOUT_MS : Nat := 5000

/-- The watchdog-related part of the `g_health_ctx` singleton. -/
structure HealthCtx where
  last_pet_ms : Nat
  is_alive : Bool
  watchdog_resets : Nat
deriving DecidableEq, Repr

/-- `now - last_pet_ms` as the C computes it on `uint64_t` (wrapping
subtraction); equals plain subtraction whenever `last ≤ now < 2^64`. -/
def u64_sub (now last : Nat) : Nat := (2 ^ 64 + now - last % 2 ^ 64) % 2 ^ 64

/-- `health_monitor_init` at time `now`: freshly petted, alive, zero resets. -/
def health_monitor_init_ctx (now : Nat) : HealthCtx :=
  { last_pet_ms := now, is_alive := true, watchdog_resets := 0 }

/-- `health_monitor_pet_watchdog` at time `now`.  If still marked alive but
the timeout has passed, mark dead and increment `watchdog_resets`; then pet
(reset the timer) and mark alive again. -/
def health_monitor_pet_watchdog (now : Nat) (c : HealthCtx) : HealthCtx :=
  let c1 :=
    if c.is_alive ∧ WATCHDOG_TIMEOUT_MS < u64_sub now c.last_pet_ms then
      { c with is_alive := false, watchdog_resets := c.watchdog_resets + 1 }
    else c
  let c2 := { c1 with last_pet_ms := now }
  if c2.is_alive then c2 else { c2 with is_alive := true }

/-- `health_monitor_is_alive` at time `now`: marks the context dead when the
timeout has passed (without touching `watchdog_resets` or the pet timer) and
returns the resulting flag. -/
def health_monitor_is_alive (now : Nat) (c : HealthCtx) : Bool × HealthCtx :=
  let c1 :=
    if WATCHDOG_TIMEOUT_MS < u64_sub now c.last_pet_ms then
      { c with is_alive := false }
    else c
  (c1.is_alive, c1)

/-- Watchdog states reachable by initializing at some time and then petting
and querying at nondecreasing `uint64` times; the reached state is paired
with the time of the latest call. -/
inductive HealthReach : Nat → HealthCtx → Prop
  | init (t : Nat) (ht : t < 2 ^ 64) : HealthReach t (health_monitor_init_ctx t)
  | pet (t u : Nat) (c : HealthCtx) (h : HealthReach t c) (hle : t ≤ u)
      (hlt : u < 2 ^ 64) : HealthReach u (health_monitor_pet_watchdog u c)
  | query (t u : Nat) (c : HealthCtx) (h : HealthReach t c) (hle : t ≤ u)
      (hlt : u < 2 ^ 64) : HealthReach u (health_monitor_is_alive u c).2
lemma stateInd_le_one (s : BufState) (b : FrameBuffer) : stateInd s b ≤ 1 := by
  unfold stateInd; split <;> omega

lemma setSlot_same (bufs : Fin 4 → FrameBuffer) (i : Fin 4) (b : FrameBuffer) :
    setSlot bufs i b i = b := by simp [setSlot]

lemma cntB_set (bufs : Fin 4 → FrameBuffer) (i : Fin 4) (b : FrameBuffer) (s : BufState) :
    cntB (setSlot bufs i b) s + stateInd s (bufs i) = cntB bufs s + stateInd s b := by
  rcases i with ⟨iv, hlt⟩
  interval_cases iv <;> simp [cntB, setSlot] <;> omega

lemma ringInv_get (fn : Nat) (m : FrameMgr) (h : RingInv m) :
    RingInv (frame_mgr_get_buffer fn m).2 := by
  unfold frame_mgr_get_buffer
  by_cases hfree : (m.buffers (idx4 fn)).state = .free
  · rw [if_pos hfree]
    unfold RingInv cntState at h ⊢
    dsimp only
    have hr := cntB_set m.buffers (idx4 fn)
      ({ state := .filling, frame_number := fn } : FrameBuffer) .ready
    have hs := cntB_set m.buffers (idx4 fn)
      ({ state := .filling, frame_number := fn } : FrameBuffer) .sending
    simp [stateInd] at hr hs
    omega
  · rw [if_neg hfree]
    unfold RingInv cntState at h ⊢
    dsimp only
    set d := (match scanFrom m (fun b => b.state == BufState.sending) with
      | some i => i
      | none =>
        match scanFrom m (fun b => !(b.state == BufState.free)) with
        | some i => i
        | none => m.oldest_index) with hd
    have hr1 := cntB_set m.buffers d
      ({ (m.buffers d) with state := .free } : FrameBuffer) .ready
    have hs1 := cntB_set m.buffers d
      ({ (m.buffers d) with state := .free } : FrameBuffer) .sending
    have hr2 := cntB_set
      (setSlot m.buffers d ({ (m.buffers d) with state := .free } : FrameBuffer)) d
      ({ state := .filling, frame_number := fn } : FrameBuffer) .ready
    have hs2 := cntB_set
      (setSlot m.buffers d ({ (m.buffers d) with state := .free } : FrameBuffer)) d
      ({ state := .filling, frame_number := fn } : FrameBuffer) .sending
    rw [setSlot_same] at hr2 hs2
    simp [stateInd] at hr1 hs1 hr2 hs2
    have b1 := stateInd_le_one .ready (m.buffers d)
    have b2 := stateInd_le_one .sending (m.buffers d)
    simp [stateInd] at b1 b2
    omega

lemma ringInv_commit (fn : Nat) (m : FrameMgr) (h : RingInv m) :
    RingInv (frame_mgr_commit_buffer fn m).2 := by
  unfold frame_mgr_commit_buffer
  by_cases hfill : (m.buffers (idx4 fn)).state = .filling
  · rw [if_pos hfill]
    unfold RingInv cntState at h ⊢
    dsimp only
    have hr := cntB_set m.buffers (idx4 fn)
      ({ (m.buffers (idx4 fn)) with state := .ready } : FrameBuffer) .ready
    have hs := cntB_set m.buffers (idx4 fn)
      ({ (m.buffers (idx4 fn)) with state := .ready } : FrameBuffer) .sending
    simp [stateInd, hfill] at hr hs
    omega
  · rw [if_neg hfill]
    exact h

lemma findOldestReady_ready (m : FrameMgr) (i : Fin 4)
    (h : (findOldestReady m).1 = some i) : (m.buffers i).state = .ready := by
  unfold findOldestReady at h
  have hr : List.range 4 = [0, 1, 2, 3] := rfl
  rw [hr] at h
  simp only [List.foldl] at h
  split_ifs at h <;> simp_all

lemma ringInv_getReady (m : FrameMgr) (h : RingInv m) :
    RingInv (frame_mgr_get_ready_buffer m).2.2 := by
  unfold frame_mgr_get_ready_buffer
  cases hfind : (findOldestReady m).1 with
  | none => exact h
  | some idx =>
    have hready := findOldestReady_ready m idx hfind
    unfold RingInv cntState at h ⊢
    dsimp only
    have hr := cntB_set m.buffers idx
      ({ (m.buffers idx) with state := .sending } : FrameBuffer) .ready
    have hs := cntB_set m.buffers idx
      ({ (m.buffers idx) with state := .sending } : FrameBuffer) .sending
    simp [stateInd, hready] at hr hs
    omega

lemma ringInv_release (fn : Nat) (m : FrameMgr) (h : RingInv m) :
    RingInv (frame_mgr_release_buffer fn m).2 := by
  unfold frame_mgr_release_buffer
  by_cases hsend : (m.buffers (idx4 fn)).state = .sending
  · rw [if_pos hsend]
    unfold RingInv cntState at h ⊢
    have hr := cntB_set m.buffers (idx4 fn)
      ({ (m.buffers (idx4 fn)) with state := .free } : FrameBuffer) .ready
    have hs := cntB_set m.buffers (idx4 fn)
      ({ (m.buffers (idx4 fn)) with state := .free } : FrameBuffer) .sending
    simp [stateInd, hsend] at hr hs
    split <;> dsimp only <;> omega
  · rw [if_neg hsend]
    exact h

lemma ringInv_step (m : FrameMgr) (op : RingOp) (h : RingInv m) :
    RingInv (ringStep m op) := by
  cases op with
  | get fn => exact ringInv_get fn m h
  | commit fn => exact ringInv_commit fn m h
  | getReady => exact ringInv_getReady m h
  | release fn => exact ringInv_release fn m h

lemma ringInv_foldl (ops : List RingOp) :
    ∀ m, RingInv m → RingInv (ops.foldl ringStep m) := by
  induction ops with
  | nil => intro m h; exact h
  | cons op rest ih =>
    intro m h
    exact ih (ringStep m op) (ringInv_step m op h)

lemma ringInv_init : RingInv frame_mgr_init := by
  unfold RingInv frame_mgr_init cntState cntB stateInd
  simp

lemma ringInv_run (ops : List RingOp) : RingInv (ringRun ops) :=
  ringInv_foldl ops frame_mgr_init ringInv_init

lemma u64_sub_eq (a b : Nat) (h : b ≤ a) (ha : a < 2 ^ 64) : u64_sub a b = a - b := by
  unfold u64_sub
  omega

lemma pet_last_pet (u : Nat) (c : HealthCtx) :
    (health_monitor_pet_watchdog u c).last_pet_ms = u := by
  unfold health_monitor_pet_watchdog
  dsimp only
  split_ifs <;> rfl

lemma pet_alive (u : Nat) (c : HealthCtx) :
    (health_monitor_pet_watchdog u c).is_alive = true := by
  unfold health_monitor_pet_watchdog
  dsimp only
  split_ifs <;> simp_all

lemma query_last_pet (u : Nat) (c : HealthCtx) :
    (health_monitor_is_alive u c).2.last_pet_ms = c.last_pet_ms := by
  unfold health_monitor_is_alive
  dsimp only
  split_ifs <;> rfl

lemma health_reach_inv (t : Nat) (c : HealthCtx) (h : HealthReach t c) :
    c.last_pet_ms ≤ t ∧ t < 2 ^ 64 ∧
      (c.is_alive = false → WATCHDOG_TIMEOUT_MS < t - c.last_pet_ms) := by
  induction h with
  | init t ht => exact ⟨le_refl t, ht, by simp [health_monitor_init_ctx]⟩
  | pet t u c h hle hlt ih =>
    refine ⟨by rw [pet_last_pet], hlt, ?_⟩
    rw [pet_alive]
    intro hfalse
    exact absurd hfalse (by simp)
  | query t u c h hle hlt ih =>
    obtain ⟨h1, h2, h3⟩ := ih
    refine ⟨by rw [query_last_pet]; exact h1.trans hle, hlt, ?_⟩
    rw [query_last_pet]
    unfold health_monitor_is_alive
    dsimp only
    by_cases hc : WATCHDOG_TIMEOUT_MS < u64_sub u c.last_pet_ms
    · rw [if_pos hc]
      intro _
      rw [u64_sub_eq u c.last_pet_ms (h1.trans hle) hlt] at hc
      exact hc
    · rw [if_neg hc]
      intro hfalse
      have := h3 hfalse
      omega

lemma is_alive_iff (t u : Nat) (c : HealthCtx) (h : HealthReach t c) (hle : t ≤ u)
    (hlt : u < 2 ^ 64) :
    (health_monitor_is_alive u c).1 = true ↔ u - c.last_pet_ms ≤ WATCHDOG_TIMEOUT_MS := by
  obtain ⟨h1, h2, h3⟩ := health_reach_inv t c h
  have hsub : u64_sub u c.last_pet_ms = u - c.last_pet_ms :=
    u64_sub_eq u c.last_pet_ms (h1.trans hle) hlt
  unfold health_monitor_is_alive
  dsimp only
  by_cases hc : WATCHDOG_TIMEOUT_MS < u64_sub u c.last_pet_ms
  · rw [if_pos hc]
    rw [hsub] at hc
    simp
    omega
  · rw [if_neg hc]
    rw [hsub] at hc
    constructor
    · intro _; omega
    · intro _
      by_contra hfalse
      have hf : c.is_alive = false := by
        cases hcc : c.is_alive
        · rfl
        · exact absurd hcc hfalse
      have := h3 hf
      omega
lemma find?_eq_some_of_unique {α : Type} {p : α → Bool} {l : List α} {a : α}
    (ha : a ∈ l) (hpa : p a = true) (huniq : ∀ b ∈ l, p b = true → b = a) :
    l.find? p = some a := by
  induction l with
  | nil => cases ha
  | cons x xs ih =>
    by_cases hx : p x = true
    · rw [List.find?_cons_of_pos xs hx]
      have := huniq x (List.mem_cons_self x xs) hx
      rw [this]
    · rw [List.find?_cons_of_neg xs (by simpa using hx)]
      rcases List.mem_cons.mp ha with rfl | hmem
      · exact absurd hpa hx
      · exact ih hmem fun b hb hpb => huniq b (List.mem_cons_of_mem x hb) hpb

lemma findMatchSlot_spec (c : CmdCtx) (S : String) (i : Fin 16)
    (h : findMatchSlot c S = some i) : c.last_ip i ≠ "" ∧ c.last_ip i = S := by
  have := List.find?_some h
  simpa using this

lemma findMatchSlot_eq (c : CmdCtx) (S : String) (i : Fin 16) (hinv : CmdInv c)
    (hip : c.last_ip i = S) (hne : S ≠ "") : findMatchSlot c S = some i := by
  unfold findMatchSlot
  apply find?_eq_some_of_unique (List.mem_finRange i) (by simp [hip, hne])
  intro j hj hpj
  have hj2 : c.last_ip j ≠ "" ∧ c.last_ip j = S := by simpa using hpj
  exact hinv.2 j i hj2.1 (by rw [hj2.2, hip])

lemma findMatchSlot_none (c : CmdCtx) (S : String)
    (h : findMatchSlot c S = none) (i : Fin 16) :
    ¬(c.last_ip i ≠ "" ∧ c.last_ip i = S) := by
  unfold findMatchSlot at h
  have := List.find?_eq_none.mp h i (List.mem_finRange i)
  simpa using this

lemma findEmptySlot_spec (c : CmdCtx) (i : Fin 16)
    (h : findEmptySlot c = some i) : c.last_ip i = "" := by
  have := List.find?_some h
  simpa using this

lemma find_slot_seq (S : String) (c : CmdCtx) :
    (find_client_slot S c).2.last_seq = c.last_seq := by
  unfold find_client_slot
  cases hm : findMatchSlot c S with
  | some i => rfl
  | none =>
    cases he : findEmptySlot c with
    | some i => rfl
    | none => rfl

lemma find_slot_ip (S : String) (c : CmdCtx) (i : Fin 16) (hS : CanonIp S)
    (h : (find_client_slot S c).1 = some i) :
    (find_client_slot S c).2.last_ip i = S := by
  unfold find_client_slot at h ⊢
  cases hm : findMatchSlot c S with
  | some j =>
    simp [hm] at h ⊢
    subst h
    exact (findMatchSlot_spec c S _ hm).2
  | none =>
    simp [hm] at h ⊢
    cases he : findEmptySlot c with
    | some j =>
      simp [he] at h ⊢
      subst h
      simp [Function.update, hS.2]
    | none =>
      simp [he] at h

lemma find_slot_preserves (S : String) (c : CmdCtx) (i0 : Fin 16)
    (hne : c.last_ip i0 ≠ "") :
    (find_client_slot S c).2.last_ip i0 = c.last_ip i0 := by
  unfold find_client_slot
  cases hm : findMatchSlot c S with
  | some j => rfl
  | none =>
    cases he : findEmptySlot c with
    | some j =>
      have hj : c.last_ip j = "" := findEmptySlot_spec c j he
      have hij : i0 ≠ j := fun hc => hne (by rw [hc]; exact hj)
      simp [Function.update_noteq hij]
    | none => rfl

lemma cmdInv_find_slot (S : String) (c : CmdCtx) (hinv : CmdInv c) (hS : CanonIp S) :
    CmdInv (find_client_slot S c).2 := by
  unfold find_client_slot
  cases hm : findMatchSlot c S with
  | some j => exact hinv
  | none =>
    cases he : findEmptySlot c with
    | some j =>
      have hj : c.last_ip j = "" := findEmptySlot_spec c j he
      constructor
      · intro i hi
        by_cases hij : i = j
        · subst hij
          simp [Function.update_same, hS.2] at hi
          exact absurd hi hS.1
        · simp [Function.update_noteq hij] at hi
          exact hinv.1 i hi
      · intro i1 i2 h1 h2
        simp only at h1 h2
        by_cases h1j : i1 = j <;> by_cases h2j : i2 = j
        · rw [h1j, h2j]
        · subst h1j
          rw [Function.update_same, hS.2] at h1 h2
          rw [Function.update_noteq h2j] at h2
          exact absurd (findMatchSlot_none c S hm i2
            ⟨by rw [← h2]; exact h1, h2.symm⟩) (by simp)
        · subst h2j
          rw [Function.update_noteq h1j] at h1 h2
          rw [Function.update_same, hS.2] at h2
          exact absurd (findMatchSlot_none c S hm i1 ⟨h1, h2⟩) (by simp)
        · rw [Function.update_noteq h1j] at h1 h2
          rw [Function.update_noteq h2j] at h2
          exact hinv.2 i1 i2 h1 h2
    | none => exact hinv

lemma cmd_process_of_check_zero (q : Nat) (T : String) (c : CmdCtx)
    (h : (cmd_check_replay q T c).1 = 0) :
    cmd_process q T c = (0, cmd_update_replay_state q T (cmd_check_replay q T c).2) := by
  unfold cmd_process
  rw [if_pos h]

lemma cmd_process_of_check_ne (q : Nat) (T : String) (c : CmdCtx)
    (h : (cmd_check_replay q T c).1 ≠ 0) :
    cmd_process q T c = cmd_check_replay q T c := by
  unfold cmd_process
  rw [if_neg h]

lemma cmd_process_facts (q : Nat) (T : String) (c : CmdCtx)
    (hinv : CmdInv c) (hT : CanonIp T) :
    CmdInv (cmd_process q T c).2 ∧
    ∀ i0, c.last_ip i0 ≠ "" →
      (cmd_process q T c).2.last_ip i0 = c.last_ip i0 ∧
      c.last_seq i0 ≤ (cmd_process q T c).2.last_seq i0 := by
  have hInv1 : CmdInv (find_client_slot T c).2 := cmdInv_find_slot T c hinv hT
  have hSeq1 : (find_client_slot T c).2.last_seq = c.last_seq := find_slot_seq T c
  rcases hfc : find_client_slot T c with ⟨opt, c1⟩
  rw [hfc] at hInv1 hSeq1
  dsimp only at hInv1 hSeq1
  have hPres1 : ∀ i0, c.last_ip i0 ≠ "" → c1.last_ip i0 = c.last_ip i0 := by
    intro i0 h0
    have := find_slot_preserves T c i0 h0
    rw [hfc] at this
    exact this
  cases opt with
  | none =>
    have hcheck : cmd_check_replay q T c = (-ENOMEM, c1) := by
      unfold cmd_check_replay
      rw [hfc]
    have hres : cmd_process q T c = (-ENOMEM, c1) := by
      rw [cmd_process_of_check_ne q T c
        (by rw [hcheck]; dsimp only; norm_num [ENOMEM]), hcheck]
    rw [hres]
    refine ⟨hInv1, ?_⟩
    intro i0 h0
    exact ⟨hPres1 i0 h0, le_of_eq (congrFun hSeq1.symm i0)⟩
  | some j =>
    by_cases hle : q ≤ c1.last_seq j
    · have hcheck : cmd_check_replay q T c = (-EADDRINUSE, c1) := by
        unfold cmd_check_replay
        rw [hfc]
        dsimp only
        rw [if_pos hle]
      have hres : cmd_process q T c = (-EADDRINUSE, c1) := by
        rw [cmd_process_of_check_ne q T c
          (by rw [hcheck]; dsimp only; norm_num [EADDRINUSE]), hcheck]
      rw [hres]
      refine ⟨hInv1, ?_⟩
      intro i0 h0
      exact ⟨hPres1 i0 h0, le_of_eq (congrFun hSeq1.symm i0)⟩
    · have hcheck : cmd_check_replay q T c = (0, c1) := by
        unfold cmd_check_replay
        rw [hfc]
        dsimp only
        rw [if_neg hle]
      have hipj : c1.last_ip j = T := by
        have := find_slot_ip T c j hT (by rw [hfc])
        rw [hfc] at this
        exact this
      have hfind2 : findMatchSlot c1 T = some j :=
        findMatchSlot_eq c1 T j hInv1 hipj hT.1
      have hupd : cmd_update_replay_state q T c1 =
          { c1 with last_seq := Function.update c1.last_seq j q } := by
        unfold cmd_update_replay_state find_client_slot
        rw [hfind2]
      have hres : cmd_process q T c =
          (0, { c1 with last_seq := Function.update c1.last_seq j q }) := by
        rw [cmd_process_of_check_zero q T c (by rw [hcheck]), hcheck, ← hupd]
      rw [hres]
      constructor
      · constructor
        · intro i hi
          dsimp only at hi ⊢
          by_cases hij : i = j
          · subst hij
            rw [hipj] at hi
            exact absurd hi hT.1
          · rw [Function.update_noteq hij]
            exact hInv1.1 i hi
        · intro i1 i2 h1 h2
          exact hInv1.2 i1 i2 h1 h2
      · intro i0 h0
        refine ⟨hPres1 i0 h0, ?_⟩
        dsimp only
        by_cases hij : i0 = j
        · subst hij
          rw [Function.update_same, ← congrFun hSeq1 i0]
          omega
        · rw [Function.update_noteq hij, ← congrFun hSeq1 i0]

lemma cmdInv_init : CmdInv cmd_protocol_init_ctx := by
  constructor
  · intro i _
    rfl
  · intro i j hi _
    exact absurd rfl hi

lemma cmdReach_inv (c : CmdCtx) (h : CmdReach c) : CmdInv c := by
  induction h with
  | init => exact cmdInv_init
  | step seq ip c h hip ih => exact (cmd_process_facts seq ip c ih hip).1

lemma runCmds_facts (tr : List (Nat × String)) (htr : ValidTrace tr) :
    ∀ c, CmdInv c → ∀ i0, c.last_ip i0 ≠ "" →
      CmdInv (runCmds tr c) ∧
      (runCmds tr c).last_ip i0 = c.last_ip i0 ∧
      c.last_seq i0 ≤ (runCmds tr c).last_seq i0 := by
  induction tr with
  | nil =>
    intro c hinv i0 h0
    exact ⟨hinv, rfl, le_refl _⟩
  | cons p rest ih =>
    intro c hinv i0 h0
    have hp : CanonIp p.2 := htr p (List.mem_cons_self p rest)
    have hfacts := cmd_process_facts p.1 p.2 c hinv hp
    have hrest : ValidTrace rest := fun x hx => htr x (List.mem_cons_of_mem p hx)
    have hstep := hfacts.2 i0 h0
    have hne : (cmd_process p.1 p.2 c).2.last_ip i0 ≠ "" := by
      rw [hstep.1]
      exact h0
    have := ih hrest (cmd_process p.1 p.2 c).2 hfacts.1 i0 hne
    refine ⟨this.1, ?_, ?_⟩
    · rw [show runCmds (p :: rest) c = runCmds rest (cmd_process p.1 p.2 c).2 from rfl]
      rw [this.2.1, hstep.1]
    · rw [show runCmds (p :: rest) c = runCmds rest (cmd_process p.1 p.2 c).2 from rfl]
      exact le_trans hstep.2 this.2.2

lemma cmd_check_rejects (c : CmdCtx) (hinv : CmdInv c) (S : String) (i0 : Fin 16)
    (hip : c.last_ip i0 = S) (hne : S ≠ "") (q : Nat) (hq : q ≤ c.last_seq i0) :
    (cmd_check_replay q S c).1 = -EADDRINUSE := by
  have hfind : findMatchSlot c S = some i0 := findMatchSlot_eq c S i0 hinv hip hne
  unfold cmd_check_replay find_client_slot
  rw [hfind]
  dsimp only
  rw [if_pos hq]

lemma cmd_accept_state (Q : Nat) (S : String) (c : CmdCtx) (hinv : CmdInv c)
    (hS : CanonIp S) (hacc : (cmd_check_replay Q S c).1 = 0) :
    ∃ i0, (cmd_update_replay_state Q S (cmd_check_replay Q S c).2).last_ip i0 = S ∧
      (cmd_update_replay_state Q S (cmd_check_replay Q S c).2).last_seq i0 = Q ∧
      CmdInv (cmd_update_replay_state Q S (cmd_check_replay Q S c).2) := by
  have hInv1 : CmdInv (find_client_slot S c).2 := cmdInv_find_slot S c hinv hS
  rcases hfc : find_client_slot S c with ⟨opt, c1⟩
  rw [hfc] at hInv1
  dsimp only at hInv1
  cases opt with
  | none =>
    exfalso
    have hcheck : cmd_check_replay Q S c = (-ENOMEM, c1) := by
      unfold cmd_check_replay
      rw [hfc]
    rw [hcheck] at hacc
    norm_num [ENOMEM] at hacc
  | some j =>
    by_cases hle : Q ≤ c1.last_seq j
    · exfalso
      have hcheck : cmd_check_replay Q S c = (-EADDRINUSE, c1) := by
        unfold cmd_check_replay
        rw [hfc]
        dsimp only
        rw [if_pos hle]
      rw [hcheck] at hacc
      norm_num [EADDRINUSE] at hacc
    · have hcheck : cmd_check_replay Q S c = (0, c1) := by
        unfold cmd_check_replay
        rw [hfc]
        dsimp only
        rw [if_neg hle]
      have hipj : c1.last_ip j = S := by
        have := find_slot_ip S c j hS (by rw [hfc])
        rw [hfc] at this
        exact this
      have hfind2 : findMatchSlot c1 S = some j :=
        findMatchSlot_eq c1 S j hInv1 hipj hS.1
      have hupd : cmd_update_replay_state Q S c1 =
          { c1 with last_seq := Function.update c1.last_seq j Q } := by
        unfold cmd_update_replay_state find_client_slot
        rw [hfind2]
      refine ⟨j, ?_⟩
      rw [hcheck]
      dsimp only
      rw [hupd]
      refine ⟨hipj, by dsimp only; rw [Function.update_same], ?_⟩
      constructor
      · intro i hi
        dsimp only at hi ⊢
        by_cases hij : i = j
        · subst hij
          rw [hipj] at hi
          exact absurd hi hS.1
        · rw [Function.update_noteq hij]
          exact hInv1.1 i hi
      · intro i1 i2 h1 h2
        exact hInv1.2 i1 i2 h1 h2

lemma findMatchSlot_eq_none (c : CmdCtx) (S : String)
    (habs : ∀ i, ¬(c.last_ip i ≠ "" ∧ c.last_ip i = S)) :
    findMatchSlot c S = none := by
  unfold findMatchSlot
  rw [List.find?_eq_none]
  intro i _
  simpa using habs i

lemma cmd_check_rejects_zero (c : CmdCtx) (S : String)
    (habs : ∀ i, ¬(c.last_ip i ≠ "" ∧ c.last_ip i = S)) :
    (cmd_check_replay 0 S c).1 ≠ 0 := by
  have hm : findMatchSlot c S = none := findMatchSlot_eq_none c S habs
  unfold cmd_check_replay find_client_slot
  rw [hm]
  cases he : findEmptySlot c with
  | some i =>
    dsimp only
    rw [if_pos (Nat.zero_le _)]
    norm_num [EADDRINUSE]
  | none =>
    dsimp only
    norm_num [ENOMEM]

/- ==========================================================================
   Claim theorems
   ========================================================================== -/

set_option maxRecDepth 16384 in
/-- C1: the claim states that decoding an encoded header returns every field
of the input unchanged (reserved bytes apart), with the timestamp carried as
8 bytes little-endian at offset 24, and `crc_valid = true`.  Evaluating the
encode/decode pair of frame_header.c at the input of the repository's own
unit test FW_UT_02_004 (frame 1, packet 0 of 1, payload_len 100, flags 0,
timestamp 1111111111111 ns) shows the bug: the timestamp is written at
offset 22 and its top two bytes are then overwritten by the CRC-16 (0xF223 =
61987 here), so the decoded timestamp is 1111111111111 + 61987·2^48, not
1111111111111 — while all other fields and `crc_valid = true` do round-trip.
The unit test asserts timestamp equality, so the code contradicts its own
test (and the struct layout in frame_header.h, which places `timestamp_ns`
at offset 24). -/
theorem frame_header_roundtrip_loses_timestamp :
    frame_header_decode (frame_header_encode 1 0 1 100 0 1111111111111) =
      some { frame_number := 1, packet_index := 0, total_packets := 1,
             payload_len := 100, flags := 0,
             timestamp_ns := 1111111111111 + 61987 * 2 ^ 48, crc_valid := true } ∧
    1111111111111 + 61987 * 2 ^ 48 ≠ 1111111111111 := by
  decide

set_option maxRecDepth 16384 in
/-- C2: from an initialized four-slot ring, acquiring and committing frames
0, 1, 2, 3 leaves all slots READY; a further `frame_mgr_get_buffer 4`
succeeds (returns 0), force-frees the slot holding frame 0 and reuses it in
FILLING for frame 4, setting `frames_dropped = 1` and `overruns = 1`; after
`frame_mgr_commit_buffer 4` the next `frame_mgr_get_ready_buffer` succeeds
and returns frame 1, the READY slot with the smallest frame number. -/
theorem frame_ring_oldest_drop_scenario :
    (∀ i : Fin 4,
      ((ringRun [.get 0, .commit 0, .get 1, .commit 1,
                 .get 2, .commit 2, .get 3, .commit 3]).buffers i).state = .ready) ∧
    (frame_mgr_get_buffer 4
      (ringRun [.get 0, .commit 0, .get 1, .commit 1,
                .get 2, .commit 2, .get 3, .commit 3])).1 = 0 ∧
    ((frame_mgr_get_buffer 4
      (ringRun [.get 0, .commit 0, .get 1, .commit 1,
                .get 2, .commit 2, .get 3, .commit 3])).2.buffers 0).state = .filling ∧
    ((frame_mgr_get_buffer 4
      (ringRun [.get 0, .commit 0, .get 1, .commit 1,
                .get 2, .commit 2, .get 3, .commit 3])).2.buffers 0).frame_number = 4 ∧
    (frame_mgr_get_buffer 4
      (ringRun [.get 0, .commit 0, .get 1, .commit 1,
                .get 2, .commit 2, .get 3, .commit 3])).2.stats.frames_dropped = 1 ∧
    (frame_mgr_get_buffer 4
      (ringRun [.get 0, .commit 0, .get 1, .commit 1,
                .get 2, .commit 2, .get 3, .commit 3])).2.stats.overruns = 1 ∧
    (frame_mgr_get_ready_buffer
      (frame_mgr_commit_buffer 4
        (frame_mgr_get_buffer 4
          (ringRun [.get 0, .commit 0, .get 1, .commit 1,
                    .get 2, .commit 2, .get 3, .commit 3])).2).2).1 = 0 ∧
    (frame_mgr_get_ready_buffer
      (frame_mgr_commit_buffer 4
        (frame_mgr_get_buffer 4
          (ringRun [.get 0, .commit 0, .get 1, .commit 1,
                    .get 2, .commit 2, .get 3, .commit 3])).2).2).2.1 = 1 := by
  decide

/-- C3: once the replay check has admitted sequence Q from source S and the
replay state has been updated, every later command from S whose sequence is
not strictly greater than Q is rejected by `cmd_check_replay` with
−EADDRINUSE (the REPLAY error), whatever valid command traffic (from any
canonical sources) is processed in between.  `CmdReach` restricts the start
state to states the protocol can actually reach from `cmd_protocol_init`. -/
theorem cmd_replay_monotone_after_accept (c : CmdCtx) (hreach : CmdReach c)
    (S : String) (hS : CanonIp S) (Q : Nat)
    (hacc : (cmd_check_replay Q S c).1 = 0)
    (tr : List (Nat × String)) (htr : ValidTrace tr)
    (q' : Nat) (hq : q' ≤ Q) :
    (cmd_check_replay q' S
        (runCmds tr (cmd_update_replay_state Q S (cmd_check_replay Q S c).2))).1 =
      -EADDRINUSE := by
  have hinv : CmdInv c := cmdReach_inv c hreach
  obtain ⟨i0, hip, hseq, hinv2⟩ := cmd_accept_state Q S c hinv hS hacc
  have h0 : (cmd_update_replay_state Q S (cmd_check_replay Q S c).2).last_ip i0 ≠ "" := by
    rw [hip]
    exact hS.1
  obtain ⟨hinv3, hip3, hseq3⟩ :=
    runCmds_facts tr htr (cmd_update_replay_state Q S (cmd_check_replay Q S c).2) hinv2 i0 h0
  apply cmd_check_rejects _ hinv3 S i0 (by rw [hip3, hip]) hS.1
  rw [hseq] at hseq3
  omega

/-- C3 witness: from a fresh replay table, sequence 0xFFFFFFFE from source
192.0.2.1 is accepted, then 0xFFFFFFFF is accepted, and a following sequence
0x00000000 from the same source is rejected as replay. -/
theorem cmd_replay_monotone_after_accept_witness :
    (cmd_check_replay 4294967294 "192.0.2.1" cmd_protocol_init_ctx).1 = 0 ∧
    (cmd_process 4294967295 "192.0.2.1"
        (cmd_update_replay_state 4294967294 "192.0.2.1"
          (cmd_check_replay 4294967294 "192.0.2.1" cmd_protocol_init_ctx).2)).1 = 0 ∧
    (cmd_check_replay 0 "192.0.2.1"
        (runCmds [(4294967295, "192.0.2.1")]
          (cmd_update_replay_state 4294967294 "192.0.2.1"
            (cmd_check_replay 4294967294 "192.0.2.1" cmd_protocol_init_ctx).2))).1 =
      -EADDRINUSE := by
  refine ⟨by decide, by decide, ?_⟩
  apply cmd_replay_monotone_after_accept cmd_protocol_init_ctx CmdReach.init
    "192.0.2.1" ⟨by decide, by decide⟩ 4294967294 (by decide)
    [(4294967295, "192.0.2.1")] ?_ 0 (by decide)
  intro p hp
  rw [List.mem_singleton.mp hp]
  exact ⟨by decide, by decide⟩

/-- The engine context after `seq_init`, `seq_start_scan(SINGLE)`,
CONFIG_DONE, ARM_DONE and FRAME_READY: STREAMING in SINGLE mode. -/
def seq_streaming_single : SeqCtx :=
  (seq_handle_event .frame_ready
    (seq_handle_event .arm_done
      (seq_handle_event .config_done
        (seq_start_scan .single seq_init_ctx).2).2).2).2

/-- C4: the claim (backed by the specification's transition table, the code's
own comment in `handle_complete_state` and unit test FW_UT_05_006) states
that COMPLETE in STREAMING with SINGLE mode transitions to the COMPLETE
state and increments `frames_sent`.  The code does neither: in SINGLE mode
`handle_complete_state` returns 0 without calling `transition_to` or
touching the statistics, so the engine stays in STREAMING with `frames_sent`
still 0 — the `SEQ_STATE_COMPLETE` state is unreachable. -/
theorem seq_single_complete_no_transition :
    seq_streaming_single.state = .streaming ∧
    seq_streaming_single.mode = .single ∧
    seq_handle_event .complete seq_streaming_single = (0, seq_streaming_single) ∧
    (seq_handle_event .complete seq_streaming_single).2.state ≠ SeqState.complete ∧
    (seq_handle_event .complete seq_streaming_single).2.stats.frames_sent = 0 := by
  decide

/-- The engine context after ERROR_CLEARED is dispatched in ERROR state. -/
def afterClear (c : SeqCtx) : SeqCtx := (seq_handle_event .error_cleared c).2

/-- The engine context after ERROR_CLEARED followed by a re-entry into ERROR. -/
def afterReErr (c : SeqCtx) : SeqCtx := (seq_handle_event .error (afterClear c)).2

/-- C5: from ERROR with retry budget 0, each of the first three ERROR_CLEARED
events succeeds (result 0), moves the engine to SCANNING and raises the
budget to 1, 2, 3 respectively, with an ERROR event re-entering ERROR before
the next clear; the fourth ERROR_CLEARED fails with −ETIMEDOUT
(RETRY_EXHAUSTED) and the state remains ERROR with budget 3. -/
theorem seq_error_retry_budget (c : SeqCtx) (h1 : c.state = SeqState.error)
    (h2 : c.retry_count = 0) :
    (seq_handle_event .error_cleared c).1 = 0 ∧
    (afterClear c).state = .scanning ∧ (afterClear c).retry_count = 1 ∧
    (afterReErr c).state = .error ∧
    (seq_handle_event .error_cleared (afterReErr c)).1 = 0 ∧
    (afterClear (afterReErr c)).state = .scanning ∧
    (afterClear (afterReErr c)).retry_count = 2 ∧
    (afterReErr (afterReErr c)).state = .error ∧
    (seq_handle_event .error_cleared (afterReErr (afterReErr c))).1 = 0 ∧
    (afterClear (afterReErr (afterReErr c))).state = .scanning ∧
    (afterClear (afterReErr (afterReErr c))).retry_count = 3 ∧
    (afterReErr (afterReErr (afterReErr c))).state = .error ∧
    (seq_handle_event .error_cleared (afterReErr (afterReErr (afterReErr c)))).1 =
      -ETIMEDOUT ∧
    (afterClear (afterReErr (afterReErr (afterReErr c)))).state = .error ∧
    (afterClear (afterReErr (afterReErr (afterReErr c)))).retry_count = 3 := by
  obtain ⟨st, mode, rc, stats⟩ := c
  simp only at h1 h2
  subst h1 h2
  simp [afterClear, afterReErr, seq_handle_event, handle_error_state,
    transition_to, MAX_RETRY_COUNT, ETIMEDOUT]

/-- C5 witness: the retry-budget scenario evaluated from the concrete ERROR
state reached by START_SCAN(SINGLE), CONFIG_DONE, ARM_DONE, ERROR. -/
theorem seq_error_retry_budget_witness :
    ((seq_handle_event .error
        (seq_handle_event .arm_done
          (seq_handle_event .config_done
            (seq_start_scan .single seq_init_ctx).2).2).2).2.state = SeqState.error) ∧
    ((seq_handle_event .error
        (seq_handle_event .arm_done
          (seq_handle_event .config_done
            (seq_start_scan .single seq_init_ctx).2).2).2).2.retry_count = 0) ∧
    (afterClear (seq_handle_event .error
        (seq_handle_event .arm_done
          (seq_handle_event .config_done
            (seq_start_scan .single seq_init_ctx).2).2).2).2).state = .scanning ∧
    (seq_handle_event .error_cleared
      (afterReErr (afterReErr (afterReErr (seq_handle_event .error
        (seq_handle_event .arm_done
          (seq_handle_event .config_done
            (seq_start_scan .single seq_init_ctx).2).2).2).2)))).1 = -ETIMEDOUT := by
  have h := seq_error_retry_budget
    (seq_handle_event .error
      (seq_handle_event .arm_done
        (seq_handle_event .config_done
          (seq_start_scan .single seq_init_ctx).2).2).2).2
    (by decide) (by decide)
  exact ⟨by decide, by decide, h.2.1, h.2.2.2.2.2.2.2.2.2.2.2.2.1⟩

/-- C6: after any sequence of ring operations from an initialized ring,
`frames_received ≥ frames_sent` and
`frames_received + frames_dropped ≥ frames_sent`. -/
theorem frame_ring_counter_invariant (ops : List RingOp) :
    (ringRun ops).stats.frames_sent ≤ (ringRun ops).stats.frames_received ∧
    (ringRun ops).stats.frames_sent ≤
      (ringRun ops).stats.frames_received + (ringRun ops).stats.frames_dropped := by
  have h := ringInv_run ops
  unfold RingInv at h
  omega

/-- C6 witness: the invariant evaluated on a concrete operation sequence
containing drops, commits, sends and contract violations. -/
theorem frame_ring_counter_invariant_witness :
    (ringRun [.get 0, .commit 0, .get 1, .commit 1, .get 2, .commit 2,
              .get 3, .commit 3, .get 4, .commit 4, .getReady, .release 1,
              .release 7, .commit 2]).stats.frames_sent ≤
      (ringRun [.get 0, .commit 0, .get 1, .commit 1, .get 2, .commit 2,
                .get 3, .commit 3, .get 4, .commit 4, .getReady, .release 1,
                .release 7, .commit 2]).stats.frames_received :=
  (frame_ring_counter_invariant
    [.get 0, .commit 0, .get 1, .commit 1, .get 2, .commit 2,
     .get 3, .commit 3, .get 4, .commit 4, .getReady, .release 1,
     .release 7, .commit 2]).1

/-- C7 counterexample: the claim states that an unlisted (state, event) pair
returns "the INVALID_TRANSITION error".  Dispatching CONFIG_DONE in IDLE —
a pair outside the transition table — returns 0, the very success code every
valid transition returns; the implementation has no INVALID_TRANSITION (or
any nonzero) result for unlisted pairs, so the claim's error-return half is
false (the no-side-effect half does hold). -/
theorem seq_unlisted_event_returns_success :
    seq_event_handled seq_init_ctx.state SeqEvent.config_done = false ∧
    seq_handle_event .config_done seq_init_ctx = (0, seq_init_ctx) := by
  decide

/-- C7 (amended): for every engine context and event, if the (state, event)
pair is not one of the listed transitions, `seq_handle_event` returns 0 (the
success code — there is no distinct INVALID_TRANSITION error) and changes
neither the state, the mode, the retry budget, nor the statistics. -/
theorem seq_unlisted_event_noop (c : SeqCtx) (ev : SeqEvent)
    (h : seq_event_handled c.state ev = false) :
    seq_handle_event ev c = (0, c) := by
  obtain ⟨st, mode, rc, stats⟩ := c
  simp only at h
  cases st <;> cases ev <;>
    simp_all [seq_event_handled, seq_handle_event]

/-- C7 witness: FRAME_READY in IDLE is unlisted; dispatching it returns 0
and leaves the initial context unchanged. -/
theorem seq_unlisted_event_noop_witness :
    seq_event_handled SeqState.idle SeqEvent.frame_ready = false ∧
    seq_handle_event .frame_ready seq_init_ctx = (0, seq_init_ctx) :=
  ⟨by decide, seq_unlisted_event_noop seq_init_ctx .frame_ready (by decide)⟩

/-- C8 counterexample: the claim (copying the spec's arithmetic) says a
2048·2048·2-byte frame with payload cap 8160 yields 1028 packets; the code's
ceiling division gives 1029, because 1028·8160 = 8_388_480 < 8_388_608. -/
theorem eth_fragmentation_not_1028 :
    frame_header_calc_packets 8388608 8160 ≠ 1028 := by decide

set_option maxRecDepth 16384 in
/-- C8 (amended): fragmenting a 2048·2048·2 = 8_388_608-byte frame with the
default 8192-byte max payload (per-packet payload cap 8160) yields
`total_packets = 1029`; packet 0 carries 8160 payload bytes and the last
packet (index 1028) carries 8_388_608 − 1028·8160 = 128 bytes; the
fragmentation loop of `eth_tx_send_frame` writes `flags = 0` in every packet
header (no FIRST_PACKET or LAST_PACKET bit is ever set). -/
theorem eth_fragmentation_2048x2048 :
    frame_header_calc_packets 8388608 8160 = 1029 ∧
    (eth_tx_packets 8388608 8192).length = 1029 ∧
    (eth_tx_packets 8388608 8192).head? =
      some { packet_index := 0, total_packets := 1029, payload_len := 8160, flags := 0 } ∧
    (eth_tx_packets 8388608 8192).getLast? =
      some { packet_index := 1028, total_packets := 1029, payload_len := 128, flags := 0 } ∧
    (∀ p ∈ eth_tx_packets 8388608 8192, p.flags = 0) := by
  refine ⟨by decide, by decide, by decide, by decide, ?_⟩
  intro p hp
  unfold eth_tx_packets at hp
  simp at hp
  obtain ⟨i, _, rfl⟩ := hp
  rfl

/-- C9 counterexample: the claim states the `watchdog_resets` increment is
already visible to the observer that first sees `alive = false` (a query at
5100 ms after the last pet sees the counter incremented by one).  In the
code only `health_monitor_pet_watchdog` increments the counter;
`health_monitor_is_alive` merely clears the flag.  After a pet at t = 0, a
liveness query at t = 5100 returns `alive = false` with `watchdog_resets`
still 0. -/
theorem watchdog_query_not_incrementing :
    (health_monitor_is_alive 5100
      (health_monitor_pet_watchdog 0 (health_monitor_init_ctx 0))).1 = false ∧
    (health_monitor_is_alive 5100
      (health_monitor_pet_watchdog 0 (health_monitor_init_ctx 0))).2.watchdog_resets = 0 := by
  decide

/-- C9 (amended): liveness is true iff at most 5000 ms have elapsed since
the last pet (for reachable watchdog states observed at nondecreasing
times); a liveness query never changes `watchdog_resets`; the increment for
an alive→not-alive transition happens exactly once, at the first
`health_monitor_pet_watchdog` call that observes the timeout (which also
re-arms the watchdog), and a pet that already finds the flag cleared does
not increment again. -/
theorem watchdog_liveness_and_resets :
    (∀ t u : Nat, ∀ c : HealthCtx, HealthReach t c → t ≤ u → u < 2 ^ 64 →
      ((health_monitor_is_alive u c).1 = true ↔
        u - c.last_pet_ms ≤ WATCHDOG_TIMEOUT_MS)) ∧
    (∀ u : Nat, ∀ c : HealthCtx,
      (health_monitor_is_alive u c).2.watchdog_resets = c.watchdog_resets) ∧
    (∀ u : Nat, ∀ c : HealthCtx, c.is_alive = true →
      WATCHDOG_TIMEOUT_MS < u64_sub u c.last_pet_ms →
      (health_monitor_pet_watchdog u c).watchdog_resets = c.watchdog_resets + 1 ∧
      (health_monitor_pet_watchdog u c).is_alive = true) ∧
    (∀ u : Nat, ∀ c : HealthCtx, c.is_alive = false →
      (health_monitor_pet_watchdog u c).watchdog_resets = c.watchdog_resets ∧
      (health_monitor_pet_watchdog u c).is_alive = true) := by
  refine ⟨is_alive_iff, ?_, ?_, ?_⟩
  · intro u c
    unfold health_monitor_is_alive
    dsimp only
    split_ifs <;> rfl
  · intro u c h1 h2
    simp [health_monitor_pet_watchdog, h1, h2]
  · intro u c h1
    simp [health_monitor_pet_watchdog, h1]

/-- C9 witness: a query at 4000 ms after initialization sees `alive = true`
(via the liveness characterization applied at a concrete reachable state),
and a pet at 5100 ms after a pet at 0 increments `watchdog_resets` to 1. -/
theorem watchdog_liveness_and_resets_witness :
    (health_monitor_is_alive 4000 (health_monitor_init_ctx 0)).1 = true ∧
    (health_monitor_pet_watchdog 5100
      (health_monitor_pet_watchdog 0 (health_monitor_init_ctx 0))).watchdog_resets = 1 ∧
    (health_monitor_pet_watchdog 5100
      (health_monitor_pet_watchdog 0 (health_monitor_init_ctx 0))).is_alive = true := by
  refine ⟨?_, ?_, ?_⟩
  · exact (watchdog_liveness_and_resets.1 0 4000 (health_monitor_init_ctx 0)
      (HealthReach.init 0 (by norm_num)) (by norm_num) (by norm_num)).mpr (by decide)
  · exact ((watchdog_liveness_and_resets.2.2.1 5100
      (health_monitor_pet_watchdog 0 (health_monitor_init_ctx 0))
      (by decide) (by decide)).1).trans (by decide)
  · exact (watchdog_liveness_and_resets.2.2.1 5100
      (health_monitor_pet_watchdog 0 (health_monitor_init_ctx 0))
      (by decide) (by decide)).2

/-- C10: a command carrying sequence number 0 from a source address not yet
present in the replay table is always rejected by `cmd_check_replay`: the
per-source last-accepted sequence starts at 0 and admission requires a
strictly greater value (and when no free slot remains, allocation itself
fails with −ENOMEM), so the first admissible command from any client must
carry a sequence of at least 1. -/
theorem cmd_replay_rejects_sequence_zero (c : CmdCtx) (S : String)
    (habs : ∀ i, ¬(c.last_ip i ≠ "" ∧ c.last_ip i = S)) :
    (cmd_check_replay 0 S c).1 ≠ 0 :=
  cmd_check_rejects_zero c S habs

/-- C10 witness: sequence 0 from the fresh source 10.0.0.1 is rejected on an
initialized replay table. -/
theorem cmd_replay_rejects_sequence_zero_witness :
    (cmd_check_replay 0 "10.0.0.1" cmd_protocol_init_ctx).1 ≠ 0 :=
  cmd_replay_rejects_sequence_zero cmd_protocol_init_ctx "10.0.0.1" (by decide)

/-- C8 witness: the all-flags-zero part of the fragmentation theorem applied
to the first packet of the 8_388_608-byte frame. -/
theorem eth_fragmentation_2048x2048_witness :
    ∃ p ∈ eth_tx_packets 8388608 8192, p.flags = 0 := by
  have hhead := eth_fragmentation_2048x2048.2.2.1
  have hmem := List.mem_of_mem_head? hhead
  exact ⟨_, hmem, eth_fragmentation_2048x2048.2.2.2.2 _ hmem⟩
